import Mathlib

set_option maxRecDepth 8000

/-!
Shallow embedding of `src/server/visual-diff.py`, a single-shot visual-diff
pipeline for PDF/image documents.

Modelling conventions:
* pixel channels are natural numbers (uint8 values 0-255 in the program);
  NumPy's int16 arithmetic on them (line 72-75) is exact and is modelled on
  `ℤ`/`ℕ`;
* float64 arithmetic is modelled exactly on `ℚ` — every float the claims
  touch is produced by a handful of exact additions, multiplications and
  divisions of small integers;
* paths and other strings are `List Char`;
* the file system visible to a run maps a path to the document stored
  there; the external libraries (PyMuPDF rasterisation, PIL decoding) are
  modelled by the bitmaps they would hand back.
-/

namespace VisualDiff

/-- An RGB pixel as stored in a PIL `"RGB"` image (channel values 0-255). -/
structure RGB where
  r : ℕ
  g : ℕ
  b : ℕ
  deriving DecidableEq

/-- An RGBA pixel (channel and alpha values 0-255). -/
structure RGBA where
  r : ℕ
  g : ℕ
  b : ℕ
  a : ℕ
  deriving DecidableEq

/-- An in-memory bitmap: a PIL `Image` of size `(width, height)`;
`pix x y` is the pixel at column `x`, row `y` (NumPy index `[y][x]`). -/
structure Image where
  width : ℕ
  height : ℕ
  pix : ℕ → ℕ → RGB

/-- `|a - b|` for two channel values, as NumPy computes it on the int16
casts of the two uint8 arrays (exact for values 0-255; line 75). -/
def absDiff (a b : ℕ) : ℕ := ((a : ℤ) - (b : ℤ)).natAbs

/-- `diff_gray = np.max(np.abs(arr1 - arr2), axis=2)` at one pixel: the
maximum per-channel absolute difference (lines 75-76). -/
def diffGrayAt (img1 img2 : Image) (x y : ℕ) : ℕ :=
  max (absDiff (img1.pix x y).r (img2.pix x y).r)
    (max (absDiff (img1.pix x y).g (img2.pix x y).g)
      (absDiff (img1.pix x y).b (img2.pix x y).b))

/-- Python's `round` to an integer: round half to even (banker's rounding),
modelled on exact rationals. -/
def bankersRound (q : ℚ) : ℤ :=
  let n := Int.floor q
  let r := q - n
  if r < 1/2 then n
  else if 1/2 < r then n + 1
  else if n % 2 = 0 then n else n + 1

/-- Python's `round(x, 2)` on exact rationals. -/
def round2 (q : ℚ) : ℚ := ((bankersRound (q * 100) : ℤ) : ℚ) / 100

/-- The dict returned by `compute_diff` (lines 83-89), together with the
mask's shape (`mask.shape == (height, width)`). -/
structure DiffResult where
  height : ℕ
  width : ℕ
  mask : ℕ → ℕ → Bool
  diff_gray : ℕ → ℕ → ℕ
  total_pixels : ℕ
  changed_pixels : ℕ
  change_percentage : ℚ

/-- `compute_diff(img1, img2, sensitivity)` (lines 71-89): the change mask is
`diff_gray > sensitivity` (strict), `total_pixels = mask.size = h*w`,
`changed_pixels = np.sum(mask)` and
`change_percentage = round(changed_pixels / total_pixels * 100, 2)`.
NumPy requires the two arrays to have one common shape (the pipeline
guarantees it), so the model sizes the mask from `img1`.  `sensitivity`
comes from `argparse` with `type=int`, hence `ℤ`.  For an empty bitmap the
Python division raises `ZeroDivisionError`; the model's `ℚ` division
returns 0 there (no bitmap produced by the pipeline is empty). -/
def compute_diff (img1 img2 : Image) (sensitivity : ℤ) : DiffResult :=
  let dg : ℕ → ℕ → ℕ := diffGrayAt img1 img2
  let m : ℕ → ℕ → Bool := fun x y => decide ((dg x y : ℤ) > sensitivity)
  let h := img1.height
  let w := img1.width
  let total := h * w
  let changed := ((List.range h).map (fun y => (List.range w).countP (fun x => m x y))).sum
  { height := h, width := w, mask := m, diff_gray := dg,
    total_pixels := total, changed_pixels := changed,
    change_percentage := round2 (((changed : ℚ) / (total : ℚ)) * 100) }

/-- The inner `pad_image` helper of `normalize_sizes` (lines 61-66): return
`img` unchanged if it already has the target size, else paste it at the
origin of a white `(target_w, target_h)` canvas. -/
def pad_image (img : Image) (target_w target_h : ℕ) : Image :=
  if img.width = target_w ∧ img.height = target_h then img
  else
    { width := target_w, height := target_h,
      pix := fun x y => if x < img.width ∧ y < img.height then img.pix x y else ⟨255, 255, 255⟩ }

/-- `normalize_sizes` (lines 57-68). -/
def normalize_sizes (img1 img2 : Image) : Image × Image :=
  (pad_image img1 (max img1.width img2.width) (max img1.height img2.height),
   pad_image img2 (max img1.width img2.width) (max img1.height img2.height))

/-- `img1.convert("RGBA")` on an RGB image: alpha 255 everywhere (line 101). -/
def toRGBA (img : Image) (x y : ℕ) : RGBA :=
  ⟨(img.pix x y).r, (img.pix x y).g, (img.pix x y).b, 255⟩

/-- `brightness = np.mean(arr2, axis=2)` at one pixel (line 104): the mean
of the three channels of `img2` (float64 modelled exactly on `ℚ`). -/
def brightnessAt (img : Image) (x y : ℕ) : ℚ :=
  (((img.pix x y).r : ℚ) + ((img.pix x y).g : ℚ) + ((img.pix x y).b : ℚ)) / 3

/-- The overlay-layer pixel (lines 105-110): a zero-initialised RGBA array,
set to red `(255,50,50,180)` on `dark_mask = mask & (brightness < 128)` and
to blue `(50,50,255,140)` on `light_mask = mask & (brightness >= 128)`
(the two masks are disjoint, so the assignment order is irrelevant). -/
def overlayPix (img2 : Image) (m : ℕ → ℕ → Bool) (x y : ℕ) : RGBA :=
  if m x y && decide (brightnessAt img2 x y < 128) then ⟨255, 50, 50, 180⟩
  else if m x y && decide (128 ≤ brightnessAt img2 x y) then ⟨50, 50, 255, 140⟩
  else ⟨0, 0, 0, 0⟩

/-- `alpha_o = overlay_arr[:, :, 3:4] / 255.0` at one pixel (line 112). -/
def alphaO (img2 : Image) (m : ℕ → ℕ → Bool) (x y : ℕ) : ℚ :=
  ((overlayPix img2 m x y).a : ℚ) / 255

/-- `alpha_b = arr1[:, :, 3:4] / 255.0` at one pixel (line 113), where
`arr1` is `img1` converted to RGBA. -/
def alphaB (img1 : Image) (x y : ℕ) : ℚ := ((toRGBA img1 x y).a : ℚ) / 255

/-- `out_alpha = alpha_o + alpha_b * (1 - alpha_o)` (line 115). -/
def outAlpha (img1 img2 : Image) (m : ℕ → ℕ → Bool) (x y : ℕ) : ℚ :=
  alphaO img2 m x y + alphaB img1 x y * (1 - alphaO img2 m x y)

/-- `safe_alpha = np.where(out_alpha > 0, out_alpha, 1)` (line 116). -/
def safeAlpha (img1 img2 : Image) (m : ℕ → ℕ → Bool) (x y : ℕ) : ℚ :=
  if 0 < outAlpha img1 img2 m x y then outAlpha img1 img2 m x y else 1

/-- One channel of `out_rgb` (lines 118-119). -/
def outChan (ov base : ℕ) (aO aB safe : ℚ) : ℚ :=
  ((ov : ℚ) * aO + (base : ℚ) * aB * (1 - aO)) / safe

/-- `out_rgb` at one pixel (lines 118-119), as the triple of channels. -/
def outRGB (img1 img2 : Image) (m : ℕ → ℕ → Bool) (x y : ℕ) : ℚ × ℚ × ℚ :=
  (outChan (overlayPix img2 m x y).r (img1.pix x y).r (alphaO img2 m x y) (alphaB img1 x y) (safeAlpha img1 img2 m x y),
   outChan (overlayPix img2 m x y).g (img1.pix x y).g (alphaO img2 m x y) (alphaB img1 x y) (safeAlpha img1 img2 m x y),
   outChan (overlayPix img2 m x y).b (img1.pix x y).b (alphaO img2 m x y) (alphaB img1 x y) (safeAlpha img1 img2 m x y))

/-- `np.clip(v, 0, 255).astype(np.uint8)` on one float channel (line 122):
clip to `[0, 255]`; the uint8 cast truncates toward zero, which on the
clipped nonnegative value is the floor. -/
def clipByte (q : ℚ) : ℕ := (Int.floor (max 0 (min q 255))).toNat

/-- One pixel of `result_arr` (lines 121-122). -/
def overlayResultPix (img1 img2 : Image) (m : ℕ → ℕ → Bool) (x y : ℕ) : RGB :=
  ⟨clipByte (outRGB img1 img2 m x y).1,
   clipByte (outRGB img1 img2 m x y).2.1,
   clipByte (outRGB img1 img2 m x y).2.2⟩

/-- The metadata dict returned by the renderers (lines 127-131, 172). -/
structure OutputInfo where
  width : ℕ
  height : ℕ
  output_path : List Char
  deriving DecidableEq

/-- `generate_overlay` (lines 92-131): the composited RGB image written to
`output_path`, plus the returned metadata; `h, w = mask.shape`. -/
def generate_overlay (img1 img2 : Image) (d : DiffResult) (output_path : List Char) : Image × OutputInfo :=
  ({ width := d.width, height := d.height, pix := overlayResultPix img1 img2 d.mask },
   { width := d.width, height := d.height, output_path := output_path })

/-- `generate_side_by_side` (lines 134-172), modelled by its returned
metadata only: the canvas is `2*w + 20` wide and `h + 40` tall.  The drawn
canvas itself (labels, dilated border highlight) is PIL rendering that no
claim inspects, so it is not modelled. -/
def generate_side_by_side (img1 img2 : Image) (d : DiffResult) (output_path : List Char) : OutputInfo :=
  { width := d.width * 2 + 20, height := d.height + 40, output_path := output_path }

/-- ASCII lowercasing of one character.  `str.lower()` is Unicode-aware in
Python; every extension the program compares against is ASCII, so the model
lowercases ASCII letters and leaves other characters unchanged. -/
def asciiLower (c : Char) : Char :=
  if 'A' ≤ c ∧ c ≤ 'Z' then Char.ofNat (c.toNat + 32) else c

/-- The final path component (the part after the last slash), as
`pathlib.PurePath.name` computes it for ordinary POSIX paths. -/
def basename (p : List Char) : List Char :=
  p.foldl (fun acc c => if c = '/' then [] else acc ++ [c]) []

/-- `pathlib.PurePath.suffix`: with `i` the index of the last dot of the
final component, the suffix is `name[i:]` when `0 < i < len(name) - 1`,
else empty. -/
def pySuffix (p : List Char) : List Char :=
  let name := basename p
  match name.reverse.findIdx? (fun c => c = '.') with
  | none => []
  | some j => if 0 < name.length - 1 - j ∧ 0 < j then name.drop (name.length - 1 - j) else []

/-- `Path(file_path).suffix.lower()` (lines 38 and 48). -/
def extOf (p : List Char) : List Char := (pySuffix p).map asciiLower

/-- The raster extensions recognised on line 41. -/
def rasterExts : List (List Char) :=
  [(".png").data, (".jpg").data, (".jpeg").data, (".tiff").data, (".tif").data, (".bmp").data]

/-- Fuel-indexed scan implementing Python's `str.replace` for a nonempty
pattern: at each position, if `old` is a prefix of the rest of the string,
emit `new` and skip past the match, else keep one character and move on.
Fuel `s.length` suffices because every step consumes at least one character
of `s`.  (Python's special case for an empty pattern is not modelled; the
program only ever replaces `".png"`.) -/
def listReplaceFuel (old new : List Char) : ℕ → List Char → List Char
  | _, [] => []
  | fuel + 1, c :: rest =>
    if old.isPrefixOf (c :: rest) then new ++ listReplaceFuel old new fuel ((c :: rest).drop old.length)
    else c :: listReplaceFuel old new fuel rest
  | 0, s => s

/-- `s.replace(old, new)` for a nonempty pattern `old`. -/
def pyReplace (s old new : List Char) : List Char := listReplaceFuel old new s.length s

/-- The side-by-side output path:
`args.output.replace(".png", "_sbs.png")` (line 206). -/
def sbs_path (output : List Char) : List Char :=
  pyReplace output ((".png").data) (("_sbs.png").data)

/-- `pat` occurs somewhere in the string as a contiguous substring. -/
def hasSubstr (pat : List Char) : List Char → Bool
  | [] => pat.isEmpty
  | c :: rest => pat.isPrefixOf (c :: rest) || hasSubstr pat rest

/-- What a path can resolve to: a PDF document (a list of pages, each
rendered by the external rasteriser as a function of the requested DPI), or
a decodable raster image, modelled by its decoded RGB bitmap (the result of
`Image.open(...).convert("RGB")`, line 42). -/
inductive FileContent where
  | pdf (pages : List (ℕ → Image))
  | raster (img : Image)

/-- The file system visible to one run: path to stored document. -/
def FileSystem : Type := List Char → Option FileContent

/-- Message of the exception `fitz.open` raises when the path does not hold
an openable PDF (external library text, modelled abstractly). -/
def openDocErrMsg (path : List Char) : String :=
  "no such file: " ++ String.mk path

/-- Message of the exception `PIL.Image.open` raises when the path does not
hold a decodable raster image (external library text, modelled abstractly). -/
def openImgErrMsg (path : List Char) : String :=
  "cannot identify image file " ++ String.mk path

/-- The `ValueError` message of line 27. -/
def pageErrMsg (page_num : ℕ) (path : List Char) (count : ℕ) : String :=
  "Page " ++ Nat.repr page_num ++ " does not exist in " ++ String.mk path ++
    " (has " ++ Nat.repr count ++ " pages)"

/-- The `ValueError` message of line 44. -/
def unsupportedErrMsg (ext : List Char) : String :=
  "Unsupported file type: " ++ String.mk ext

/-- `pdf_page_to_image` (lines 24-34).  First component: the returned
bitmap, or the message of the raised exception.  Second component: `true`
iff a document handle was opened and NOT closed when the function exited —
on the page-out-of-range path the `ValueError` is raised (line 27) before
`doc.close()` (line 33), so the handle is left open; on the success path
`doc.close()` runs; if `fitz.open` itself fails, no handle was opened.
The CLI `--page` flag is an `int`; negative Python indices (which index
from the end of the document) are outside the behaviour the spec describes,
so the model takes natural page indices.  `zoom = dpi/72` and the transform
matrix live inside the external rasteriser, modelled as each page's
DPI-indexed rendering function. -/
def pdf_page_to_image (fs : FileSystem) (pdf_path : List Char) (page_num dpi : ℕ) : Except String Image × Bool :=
  match fs pdf_path with
  | some (FileContent.pdf pages) =>
    if h : pages.length ≤ page_num then
      (Except.error (pageErrMsg page_num pdf_path pages.length), true)
    else
      (Except.ok (pages.get ⟨page_num, by omega⟩ dpi), false)
  | _ => (Except.error (openDocErrMsg pdf_path), false)

/-- `load_image` (lines 37-44); the local `ext` of the source is inlined. -/
def load_image (fs : FileSystem) (file_path : List Char) (page_num dpi : ℕ) : Except String Image :=
  if extOf file_path = ((".pdf").data) then (pdf_page_to_image fs file_path page_num dpi).1
  else if extOf file_path ∈ rasterExts then
    match fs file_path with
    | some (FileContent.raster img) => Except.ok img
    | _ => Except.error (openImgErrMsg file_path)
  else Except.error (unsupportedErrMsg (extOf file_path))

/-- `get_page_count` (lines 47-54): for a PDF the handle is opened, read
and closed on a straight line; any non-PDF extension returns 1 without
touching the file. -/
def get_page_count (fs : FileSystem) (file_path : List Char) : Except String ℕ :=
  if extOf file_path = ((".pdf").data) then
    match fs file_path with
    | some (FileContent.pdf pages) => Except.ok pages.length
    | _ => Except.error (openDocErrMsg file_path)
  else Except.ok 1

/-- `--mode` (lines 183-184). -/
inductive Mode where
  | overlay
  | sideBySide
  | both
  deriving DecidableEq

/-- The parsed CLI arguments (lines 176-185).  `--dpi`, `--sensitivity` and
`--page` are `type=int`; `sensitivity` is kept as `ℤ` (nothing clamps it to
0-255), while `dpi` and `page` are taken as naturals (see
`pdf_page_to_image`). -/
structure Args where
  file1 : List Char
  file2 : List Char
  output : List Char
  dpi : ℕ
  sensitivity : ℤ
  page : ℕ
  mode : Mode

/-- The fields of the success `result` dict (lines 210-221). -/
structure SuccessPayload where
  pages_doc1 : ℕ
  pages_doc2 : ℕ
  compared_page : ℕ
  total_pixels : ℕ
  changed_pixels : ℕ
  change_percentage : ℚ
  sensitivity : ℤ
  dpi : ℕ
  overlay : Option OutputInfo
  side_by_side : Option OutputInfo

/-- The JSON values the program prints (numbers are exact rationals). -/
inductive Json where
  | str (s : String)
  | num (q : ℚ)
  | bool (b : Bool)
  | obj (fields : List (String × Json))

/-- The per-renderer entry of `output_files` (lines 127-131, 172). -/
def infoJson (i : OutputInfo) : Json :=
  Json.obj [("width", Json.num i.width), ("height", Json.num i.height),
    ("output_path", Json.str (String.mk i.output_path))]

/-- The `output_files` dict (lines 198-208): one key per selected mode. -/
def outputFilesJson (r : SuccessPayload) : Json :=
  Json.obj ((match r.overlay with | some i => [("overlay", infoJson i)] | none => []) ++
    (match r.side_by_side with | some i => [("side_by_side", infoJson i)] | none => []))

/-- The success JSON object (lines 210-223). -/
def successJson (r : SuccessPayload) : Json :=
  Json.obj [("success", Json.bool true), ("pages_doc1", Json.num r.pages_doc1),
    ("pages_doc2", Json.num r.pages_doc2), ("compared_page", Json.num r.compared_page),
    ("total_pixels", Json.num r.total_pixels), ("changed_pixels", Json.num r.changed_pixels),
    ("change_percentage", Json.num r.change_percentage), ("sensitivity", Json.num r.sensitivity),
    ("dpi", Json.num r.dpi), ("output_files", outputFilesJson r)]

/-- The failure JSON object (lines 227-231). -/
def failureJson (e : String) : Json :=
  Json.obj [("success", Json.bool false), ("error", Json.str e)]

/-- The body of `main`'s `try:` block (lines 187-221): each library call
that can raise is a fallible step whose exception propagates straight to
the `except` handler. -/
def runPipeline (fs : FileSystem) (a : Args) : Except String SuccessPayload :=
  match get_page_count fs a.file1 with
  | Except.error e => Except.error e
  | Except.ok pages1 =>
    match get_page_count fs a.file2 with
    | Except.error e => Except.error e
    | Except.ok pages2 =>
      match load_image fs a.file1 a.page a.dpi with
      | Except.error e => Except.error e
      | Except.ok i1 =>
        match load_image fs a.file2 a.page a.dpi with
        | Except.error e => Except.error e
        | Except.ok i2 =>
          let n := normalize_sizes i1 i2
          let d := compute_diff n.1 n.2 a.sensitivity
          let ovInfo := if a.mode = Mode.overlay ∨ a.mode = Mode.both
            then some (generate_overlay n.1 n.2 d a.output).2 else none
          let sbInfo := if a.mode = Mode.sideBySide ∨ a.mode = Mode.both
            then some (generate_side_by_side n.1 n.2 d (sbs_path a.output)) else none
          let payload : SuccessPayload :=
            { pages_doc1 := pages1, pages_doc2 := pages2, compared_page := a.page,
              total_pixels := d.total_pixels, changed_pixels := d.changed_pixels,
              change_percentage := d.change_percentage, sensitivity := a.sensitivity,
              dpi := a.dpi, overlay := ovInfo, side_by_side := sbInfo }
          Except.ok payload

/-- `main` (lines 175-232): the `try/except` around the pipeline.  The
result is the single JSON object printed to standard output paired with the
process exit code (`sys.exit(0)` on success, `sys.exit(1)` on failure). -/
def main (fs : FileSystem) (a : Args) : Json × ℕ :=
  match runPipeline fs a with
  | Except.ok r => (successJson r, 0)
  | Except.error e => (failureJson e, 1)

/-- A 1-by-1 all-black bitmap, used as a concrete test input. -/
def img1x1 : Image := { width := 1, height := 1, pix := fun _ _ => ⟨0, 0, 0⟩ }

/-- A 1-by-1 bitmap whose single pixel is `(30, 0, 0)`. -/
def imgDiff30 : Image := { width := 1, height := 1, pix := fun _ _ => ⟨30, 0, 0⟩ }

/-- A concrete file system: `a.pdf` is a zero-page PDF, `b.png` a raster. -/
def fsDemo : FileSystem := fun p =>
  if p = (("a.pdf").data) then some (FileContent.pdf [])
  else if p = (("b.png").data) then some (FileContent.raster img1x1)
  else none

/-- Concrete CLI arguments against `fsDemo`. -/
def argsDemo : Args :=
  { file1 := ("a.pdf").data, file2 := ("b.png").data, output := ("out.png").data,
    dpi := 150, sensitivity := 30, page := 0, mode := Mode.overlay }

/-- A concrete diff result whose mask flags every pixel. -/
def dAll : DiffResult :=
  { height := 1, width := 1, mask := fun _ _ => true, diff_gray := fun _ _ => 255,
    total_pixels := 1, changed_pixels := 1, change_percentage := 100 }

theorem absDiff_comm (m n : ℕ) : absDiff m n = absDiff n m := by
  unfold absDiff; omega

theorem absDiff_self (n : ℕ) : absDiff n n = 0 := by
  unfold absDiff; omega

theorem diffGrayAt_comm (a b : Image) (x y : ℕ) :
    diffGrayAt a b x y = diffGrayAt b a x y := by
  unfold diffGrayAt
  rw [absDiff_comm ((a.pix x y).r) ((b.pix x y).r),
    absDiff_comm ((a.pix x y).g) ((b.pix x y).g),
    absDiff_comm ((a.pix x y).b) ((b.pix x y).b)]

/-- C1: `compute_diff` flags a pixel exactly when the maximum per-channel
absolute difference at that pixel is strictly greater than `sensitivity`;
in particular a pixel whose maximum channel difference equals `sensitivity`
is not flagged, and one whose difference equals `sensitivity + 1` is. -/
theorem compute_diff_strict_threshold (img1 img2 : Image) (s : ℤ) (x y : ℕ) :
    ((compute_diff img1 img2 s).mask x y = true ↔ (diffGrayAt img1 img2 x y : ℤ) > s) ∧
    ((diffGrayAt img1 img2 x y : ℤ) = s → (compute_diff img1 img2 s).mask x y = false) ∧
    ((diffGrayAt img1 img2 x y : ℤ) = s + 1 → (compute_diff img1 img2 s).mask x y = true) := by
  refine ⟨?_, ?_, ?_⟩
  · simp [compute_diff]
  · intro h; simp [compute_diff]; omega
  · intro h; simp [compute_diff]; omega

theorem compute_diff_strict_threshold_witness :
    (compute_diff img1x1 imgDiff30 30).mask 0 0 = false ∧
    (compute_diff img1x1 imgDiff30 29).mask 0 0 = true := by
  constructor
  · exact (compute_diff_strict_threshold img1x1 imgDiff30 30 0 0).2.1 (by decide)
  · exact (compute_diff_strict_threshold img1x1 imgDiff30 29 0 0).2.2 (by decide)

theorem compute_diff_change_percentage_eq (a b : Image) (s : ℤ) :
    (compute_diff a b s).change_percentage =
      round2 ((((compute_diff a b s).changed_pixels : ℚ) /
        ((compute_diff a b s).total_pixels : ℚ)) * 100) := rfl

/-- C4 counterexample: with the (CLI-expressible) negative sensitivity `-1`,
two identical 1-by-1 bitmaps give `changed_pixels = 1` and
`change_percentage = 100`, not 0. -/
theorem compute_diff_identical_counterexample :
    (compute_diff img1x1 img1x1 (-1)).changed_pixels = 1 ∧
    (compute_diff img1x1 img1x1 (-1)).change_percentage = 100 := by
  have hch : (compute_diff img1x1 img1x1 (-1)).changed_pixels = 1 := by decide
  have htot : (compute_diff img1x1 img1x1 (-1)).total_pixels = 1 := by decide
  refine ⟨hch, ?_⟩
  rw [compute_diff_change_percentage_eq, hch, htot]
  norm_num [round2, bankersRound]

/-- C4 (amended): for identical bitmaps and every NONNEGATIVE sensitivity,
`changed_pixels = 0` and `change_percentage = 0.00` (a negative sensitivity
flags every pixel, since every per-pixel difference is 0). -/
theorem compute_diff_identical (img : Image) (s : ℤ) (hs : 0 ≤ s)
    (hw : 0 < img.width) (hh : 0 < img.height) :
    (compute_diff img img s).changed_pixels = 0 ∧
    (compute_diff img img s).change_percentage = 0 := by
  have hmask : ∀ x y : ℕ, decide ((diffGrayAt img img x y : ℤ) > s) = false := by
    intro x y
    have h0 : diffGrayAt img img x y = 0 := by
      unfold diffGrayAt; rw [absDiff_self, absDiff_self, absDiff_self]; simp
    rw [h0]; simp only [decide_eq_false_iff_not]; omega
  have hchanged : ((List.range img.height).map
      (fun y => (List.range img.width).countP
        (fun x => decide ((diffGrayAt img img x y : ℤ) > s)))).sum = 0 := by
    apply List.sum_eq_zero
    intro n hn
    simp only [List.mem_map] at hn
    obtain ⟨y, _, rfl⟩ := hn
    rw [List.countP_eq_zero]
    intro x _
    simp [hmask x y]
  constructor
  · simpa [compute_diff] using hchanged
  · simp only [compute_diff]
    rw [hchanged]
    norm_num [round2, bankersRound]

theorem compute_diff_identical_witness :
    (compute_diff img1x1 img1x1 30).changed_pixels = 0 ∧
    (compute_diff img1x1 img1x1 30).change_percentage = 0 :=
  compute_diff_identical img1x1 30 (by decide) (by decide) (by decide)

/-- C5: for equal-sized bitmaps the change mask of `compute_diff` is
symmetric in the two inputs, and so are the derived `changed_pixels`,
`total_pixels` and `change_percentage`. -/
theorem compute_diff_symmetric (a b : Image) (s : ℤ)
    (hw : a.width = b.width) (hh : a.height = b.height) :
    (∀ x y, (compute_diff a b s).mask x y = (compute_diff b a s).mask x y) ∧
    (compute_diff a b s).changed_pixels = (compute_diff b a s).changed_pixels ∧
    (compute_diff a b s).total_pixels = (compute_diff b a s).total_pixels ∧
    (compute_diff a b s).change_percentage = (compute_diff b a s).change_percentage := by
  have hchanged : ((List.range a.height).map
      (fun y => (List.range a.width).countP
        (fun x => decide ((diffGrayAt a b x y : ℤ) > s)))).sum =
      ((List.range b.height).map
      (fun y => (List.range b.width).countP
        (fun x => decide ((diffGrayAt b a x y : ℤ) > s)))).sum := by
    rw [hw, hh]
    congr 1
    apply List.map_congr_left
    intro y _
    apply List.countP_congr
    intro x _
    rw [diffGrayAt_comm]
  refine ⟨?_, ?_, ?_, ?_⟩
  · intro x y
    simp only [compute_diff]
    rw [diffGrayAt_comm]
  · simpa [compute_diff] using hchanged
  · simp [compute_diff, hw, hh]
  · simp only [compute_diff]
    rw [hchanged, hw, hh]

theorem compute_diff_symmetric_witness :
    (compute_diff img1x1 imgDiff30 5).changed_pixels =
      (compute_diff imgDiff30 img1x1 5).changed_pixels :=
  (compute_diff_symmetric img1x1 imgDiff30 5 rfl rfl).2.1

theorem pad_image_width (img : Image) (tw th : ℕ) : (pad_image img tw th).width = tw := by
  unfold pad_image
  split_ifs with h
  · exact h.1
  · rfl

theorem pad_image_height (img : Image) (tw th : ℕ) : (pad_image img tw th).height = th := by
  unfold pad_image
  split_ifs with h
  · exact h.2
  · rfl

theorem pad_image_pix (img : Image) (tw th x y : ℕ) (hx : x < tw) (hy : y < th) :
    (pad_image img tw th).pix x y =
      if x < img.width ∧ y < img.height then img.pix x y else ⟨255, 255, 255⟩ := by
  unfold pad_image
  by_cases h : img.width = tw ∧ img.height = th
  · obtain ⟨hw1, hh1⟩ := h
    rw [if_pos ⟨hw1, hh1⟩, if_pos ⟨by omega, by omega⟩]
  · rw [if_neg h]

theorem pad_image_eq_self (img : Image) (tw th : ℕ) (h1 : img.width = tw) (h2 : img.height = th) :
    pad_image img tw th = img := by
  unfold pad_image
  rw [if_pos ⟨h1, h2⟩]

/-- C6: `normalize_sizes` maps both bitmaps to the max-width-by-max-height
canvas, keeping each input's pixels at the top-left origin and filling the
rest with white `(255,255,255)`; a bitmap already at target size is passed
through unchanged, so two already-equal-size bitmaps come back unchanged. -/
theorem normalize_sizes_spec (a b : Image) :
    ((normalize_sizes a b).1.width = max a.width b.width ∧
     (normalize_sizes a b).1.height = max a.height b.height ∧
     (normalize_sizes a b).2.width = max a.width b.width ∧
     (normalize_sizes a b).2.height = max a.height b.height) ∧
    (∀ x y, x < max a.width b.width → y < max a.height b.height →
      ((normalize_sizes a b).1.pix x y =
        if x < a.width ∧ y < a.height then a.pix x y else ⟨255, 255, 255⟩) ∧
      ((normalize_sizes a b).2.pix x y =
        if x < b.width ∧ y < b.height then b.pix x y else ⟨255, 255, 255⟩)) ∧
    (a.width = max a.width b.width → a.height = max a.height b.height →
      (normalize_sizes a b).1 = a) ∧
    (a.width = b.width → a.height = b.height →
      (normalize_sizes a b).1 = a ∧ (normalize_sizes a b).2 = b) := by
  refine ⟨⟨pad_image_width _ _ _, pad_image_height _ _ _,
    pad_image_width _ _ _, pad_image_height _ _ _⟩, ?_, ?_, ?_⟩
  · intro x y hx hy
    exact ⟨pad_image_pix a _ _ x y hx hy, pad_image_pix b _ _ x y hx hy⟩
  · intro h1 h2
    exact pad_image_eq_self a _ _ h1 h2
  · intro hw hh
    constructor
    · exact pad_image_eq_self a _ _ (by rw [hw, max_self]) (by rw [hh, max_self])
    · exact pad_image_eq_self b _ _ (by rw [hw, max_self]) (by rw [hh, max_self])

theorem normalize_sizes_spec_witness :
    (normalize_sizes img1x1 imgDiff30).1 = img1x1 ∧
    (normalize_sizes img1x1 imgDiff30).2 = imgDiff30 :=
  (normalize_sizes_spec img1x1 imgDiff30).2.2.2 rfl rfl

theorem png_chars : (".png").data = ['.', 'p', 'n', 'g'] := rfl

theorem pn_chars : (".pn").data = ['.', 'p', 'n'] := rfl

theorem listReplaceFuel_nil (old new : List Char) (fuel : ℕ) :
    listReplaceFuel old new fuel [] = [] := by
  cases fuel <;> rfl

theorem listReplaceFuel_succ (old new : List Char) (fuel : ℕ) (c : Char) (rest : List Char) :
    listReplaceFuel old new (fuel + 1) (c :: rest) =
      if old.isPrefixOf (c :: rest) then
        new ++ listReplaceFuel old new fuel ((c :: rest).drop old.length)
      else c :: listReplaceFuel old new fuel rest := rfl

theorem hasSubstr_cons (pat : List Char) (c : Char) (rest : List Char) :
    hasSubstr pat (c :: rest) = (pat.isPrefixOf (c :: rest) || hasSubstr pat rest) := rfl

theorem isPrefixOf_of_append (p : List Char) : ∀ (s t : List Char), p.length ≤ s.length →
    p.isPrefixOf (s ++ t) = true → p.isPrefixOf s = true := by
  induction p with
  | nil => intro s t _ _; cases s <;> rfl
  | cons a p ih =>
    intro s t hlen h
    cases s with
    | nil => simp at hlen
    | cons b s' =>
      have h' : (a == b) = true ∧ p.isPrefixOf (s' ++ t) = true := by
        simpa [ List.isPrefixOf] using h
      have h2 := ih s' t (by simpa using Nat.le_of_succ_le_succ hlen) h'.2
      simp [ List.isPrefixOf, h'.1, h2]

theorem listReplaceFuel_no_occurrence (old new : List Char) :
    ∀ (s : List Char) (fuel : ℕ), hasSubstr old s = false →
      listReplaceFuel old new fuel s = s := by
  intro s
  induction s with
  | nil => intro fuel _; exact listReplaceFuel_nil old new fuel
  | cons c rest ih =>
    intro fuel h
    have h' : old.isPrefixOf (c :: rest) = false ∧ hasSubstr old rest = false := by
      simpa [hasSubstr_cons] using h
    cases fuel with
    | zero => rfl
    | succ f =>
      rw [listReplaceFuel_succ, if_neg (by simp [h'.1]), ih f h'.2]

theorem listReplaceFuel_trailing (new : List Char) :
    ∀ (q : List Char) (fuel : ℕ), q.length + 4 ≤ fuel →
      hasSubstr ['.', 'p', 'n', 'g'] (q ++ ['.', 'p', 'n']) = false →
      listReplaceFuel ['.', 'p', 'n', 'g'] new fuel (q ++ ['.', 'p', 'n', 'g']) = q ++ new := by
  intro q
  induction q with
  | nil =>
    intro fuel hf _
    cases fuel with
    | zero => exact absurd hf (by omega)
    | succ f =>
      rw [List.nil_append, listReplaceFuel_succ,
        if_pos (show List.isPrefixOf ['.', 'p', 'n', 'g'] ('.' :: ['p', 'n', 'g']) = true by decide)]
      rw [show (('.' :: ['p', 'n', 'g']).drop (['.', 'p', 'n', 'g'].length)) = [] from rfl,
        listReplaceFuel_nil, List.nil_append, List.append_nil]
  | cons c q' ih =>
    intro fuel hf hno
    cases fuel with
    | zero => exact absurd hf (by omega)
    | succ f =>
      rw [List.cons_append, listReplaceFuel_succ]
      have hsplit : c :: (q' ++ ['.', 'p', 'n', 'g']) = (c :: (q' ++ ['.', 'p', 'n'])) ++ ['g'] := by
        simp
      have hpre : List.isPrefixOf ['.', 'p', 'n', 'g'] (c :: (q' ++ ['.', 'p', 'n', 'g'])) = false := by
        cases hb : List.isPrefixOf ['.', 'p', 'n', 'g'] (c :: (q' ++ ['.', 'p', 'n', 'g'])) with
        | false => rfl
        | true =>
          rw [hsplit] at hb
          have hin : List.isPrefixOf ['.', 'p', 'n', 'g'] (c :: (q' ++ ['.', 'p', 'n'])) = true :=
            isPrefixOf_of_append ['.', 'p', 'n', 'g'] (c :: (q' ++ ['.', 'p', 'n'])) ['g']
              (by simp) hb
          rw [List.cons_append, hasSubstr_cons, hin] at hno
          simp at hno
      rw [if_neg (by simp [hpre])]
      have hno' : hasSubstr ['.', 'p', 'n', 'g'] (q' ++ ['.', 'p', 'n']) = false := by
        rw [List.cons_append, hasSubstr_cons] at hno
        exact (Bool.or_eq_false_iff.mp hno).2
      rw [ih f (by simp at hf ⊢; omega) hno', List.cons_append]

/-- C2 counterexample: `"a.pngb"` has no trailing `".png"`, yet the
substitution changes it (and on `"a.png.png"` BOTH occurrences are
replaced, not only the trailing one). -/
theorem sbs_path_counterexample :
    sbs_path (("a.pngb").data) = (("a_sbs.pngb").data) ∧
    sbs_path (("a.png.png").data) = (("a_sbs.png_sbs.png").data) ∧
    (("a_sbs.pngb").data) ≠ (("a.pngb").data) := by
  refine ⟨by decide, by decide, by decide⟩

/-- C2 (amended): the side-by-side path is obtained by replacing EVERY
occurrence of `".png"` in the primary output path with `"_sbs.png"` (not
only a trailing one).  If `".png"` occurs nowhere in the path, the
substitution does nothing; if the path is `stem ++ ".png"` and the stem
followed by `".pn"` contains no `".png"`, the result is
`stem ++ "_sbs.png"`. -/
theorem sbs_path_replaces_every_occurrence (p : List Char) :
    (hasSubstr ((".png").data) p = false → sbs_path p = p) ∧
    (∀ q, p = q ++ ((".png").data) →
      hasSubstr ((".png").data) (q ++ ((".pn").data)) = false →
      sbs_path p = q ++ (("_sbs.png").data)) := by
  constructor
  · intro h
    exact listReplaceFuel_no_occurrence _ _ p p.length h
  · intro q hq hno
    subst hq
    unfold sbs_path pyReplace
    rw [png_chars] at hno ⊢
    rw [pn_chars] at hno
    exact listReplaceFuel_trailing _ q (q ++ ['.', 'p', 'n', 'g']).length (by simp) hno

theorem sbs_path_replaces_every_occurrence_witness :
    sbs_path (("diff.png").data) = (("diff_sbs.png").data) ∧
    sbs_path (("out.txt").data) = (("out.txt").data) := by
  constructor
  · exact (sbs_path_replaces_every_occurrence (("diff.png").data)).2
      (("diff").data) (by decide) (by decide)
  · exact (sbs_path_replaces_every_occurrence (("out.txt").data)).1 (by decide)

/-- C3 counterexample: asking `pdf_page_to_image` for page 0 of the
zero-page PDF `a.pdf` raises before `doc.close()`, leaving the opened
handle unclosed (second component `true`). -/
theorem pdf_page_to_image_close_counterexample :
    (pdf_page_to_image fsDemo (("a.pdf").data) 0 150).2 = true := rfl

/-- C3 (amended): `pdf_page_to_image` closes the opened document handle
before returning on the success path, but on the page-out-of-range path the
`ValueError` is raised before `doc.close()`, so a handle is left unclosed
exactly when the document opens and the requested page is out of range. -/
theorem pdf_page_to_image_close_iff (fs : FileSystem) (path : List Char) (page_num dpi : ℕ) :
    (pdf_page_to_image fs path page_num dpi).2 = true ↔
      ∃ pages, fs path = some (FileContent.pdf pages) ∧ pages.length ≤ page_num := by
  unfold pdf_page_to_image
  cases hfs : fs path with
  | none =>
    dsimp only
    simp
  | some fc =>
    cases fc with
    | pdf pages =>
      dsimp only
      by_cases h : pages.length ≤ page_num
      · rw [dif_pos h]
        simp only [true_iff]
        exact ⟨pages, rfl, h⟩
      · rw [dif_neg h]
        simp only [Bool.false_eq_true, false_iff, not_exists, not_and]
        intro p' hp'
        have : p' = pages := by
          injection hp' with hp2
          injection hp2 with hp3
          exact hp3.symm
        subst this
        exact h
    | raster img =>
      dsimp only
      simp

theorem clipByte_natCast (n : ℕ) (h : n ≤ 255) : clipByte (n : ℚ) = n := by
  unfold clipByte
  rw [min_eq_left (by exact_mod_cast h), max_eq_right (by positivity), Int.floor_natCast]
  exact Int.toNat_natCast n

/-- C10: in `generate_overlay` the base layer has alpha 255 everywhere, so
`out_alpha = 1` at every pixel, the division-by-zero guard never changes
anything (`safe_alpha = out_alpha`), and each channel of `out_rgb` is
exactly `overlay_rgb * alpha_o + bitmapA_rgb * (1 - alpha_o)`. -/
theorem generate_overlay_alpha_one (img1 img2 : Image) (d : DiffResult) (x y : ℕ) :
    outAlpha img1 img2 d.mask x y = 1 ∧
    safeAlpha img1 img2 d.mask x y = outAlpha img1 img2 d.mask x y ∧
    outRGB img1 img2 d.mask x y =
      (((overlayPix img2 d.mask x y).r : ℚ) * alphaO img2 d.mask x y +
        ((img1.pix x y).r : ℚ) * (1 - alphaO img2 d.mask x y),
       ((overlayPix img2 d.mask x y).g : ℚ) * alphaO img2 d.mask x y +
        ((img1.pix x y).g : ℚ) * (1 - alphaO img2 d.mask x y),
       ((overlayPix img2 d.mask x y).b : ℚ) * alphaO img2 d.mask x y +
        ((img1.pix x y).b : ℚ) * (1 - alphaO img2 d.mask x y)) := by
  have haB : alphaB img1 x y = 1 := by
    unfold alphaB toRGBA
    norm_num
  have h1 : outAlpha img1 img2 d.mask x y = 1 := by
    unfold outAlpha
    rw [haB]
    ring
  have hsafe : safeAlpha img1 img2 d.mask x y = 1 := by
    unfold safeAlpha
    rw [h1]
    norm_num
  refine ⟨h1, by rw [hsafe, h1], ?_⟩
  unfold outRGB outChan
  rw [haB, hsafe]
  refine Prod.ext ?_ (Prod.ext ?_ ?_) <;> dsimp only <;> ring

/-- C7: in overlay rendering a changed pixel is tinted from the mean
brightness of `bitmapB` at that coordinate — red `(255,50,50)` at alpha 180
when the mean is strictly below 128, else blue `(50,50,255)` at alpha 140 —
while an unchanged pixel is fully transparent in the overlay layer, so the
composited output pixel there equals `bitmapA`'s pixel. -/
theorem generate_overlay_tint_rule (img1 img2 : Image) (d : DiffResult) (outp : List Char)
    (x y : ℕ) (hr : (img1.pix x y).r ≤ 255) (hg : (img1.pix x y).g ≤ 255)
    (hb : (img1.pix x y).b ≤ 255) :
    (d.mask x y = true → brightnessAt img2 x y < 128 →
      overlayPix img2 d.mask x y = ⟨255, 50, 50, 180⟩) ∧
    (d.mask x y = true → 128 ≤ brightnessAt img2 x y →
      overlayPix img2 d.mask x y = ⟨50, 50, 255, 140⟩) ∧
    (d.mask x y = false →
      overlayPix img2 d.mask x y = ⟨0, 0, 0, 0⟩ ∧
      (generate_overlay img1 img2 d outp).1.pix x y = img1.pix x y) := by
  refine ⟨?_, ?_, ?_⟩
  · intro hm hbr
    unfold overlayPix
    rw [if_pos (by simp [hm, hbr])]
  · intro hm hbr
    unfold overlayPix
    rw [if_neg (by simp [hm]; exact hbr), if_pos (by simp [hm, hbr])]
  · intro hm
    have hov : overlayPix img2 d.mask x y = ⟨0, 0, 0, 0⟩ := by
      unfold overlayPix
      rw [if_neg (by simp [hm]), if_neg (by simp [hm])]
    refine ⟨hov, ?_⟩
    have haO : alphaO img2 d.mask x y = 0 := by
      unfold alphaO
      rw [hov]
      norm_num
    have haB : alphaB img1 x y = 1 := by
      unfold alphaB toRGBA
      norm_num
    have hsafe : safeAlpha img1 img2 d.mask x y = 1 := by
      unfold safeAlpha outAlpha
      rw [haO, haB]
      norm_num
    have hchan : ∀ ov base : ℕ, base ≤ 255 → outChan ov base 0 1 1 = ((base : ℕ) : ℚ) := by
      intro ov base _
      unfold outChan
      ring
    show overlayResultPix img1 img2 d.mask x y = img1.pix x y
    unfold overlayResultPix outRGB
    rw [haO, haB, hsafe, hchan _ _ hr, hchan _ _ hg, hchan _ _ hb,
      clipByte_natCast _ hr, clipByte_natCast _ hg, clipByte_natCast _ hb]

theorem generate_overlay_tint_rule_witness :
    overlayPix img1x1 dAll.mask 0 0 = ⟨255, 50, 50, 180⟩ :=
  (generate_overlay_tint_rule img1x1 img1x1 dAll (("out.png").data) 0 0
    (by decide) (by decide) (by decide)).1 rfl (by norm_num [brightnessAt, img1x1])

/-- C9: for a recognised raster extension, `load_image` ignores the page
index entirely — it returns the decoded image whenever the path holds a
decodable raster, and its result does not depend on the requested page —
while `get_page_count` reports 1 page; so a page-out-of-range failure can
only come from the PDF branch. -/
theorem load_image_raster_ignores_page (fs : FileSystem) (path : List Char) (dpi : ℕ)
    (h : extOf path ∈ rasterExts) :
    (∀ img page_num, fs path = some (FileContent.raster img) →
      load_image fs path page_num dpi = Except.ok img) ∧
    (∀ p1 p2, load_image fs path p1 dpi = load_image fs path p2 dpi) ∧
    get_page_count fs path = Except.ok 1 := by
  have hne : extOf path ≠ ((".pdf").data) := by
    intro he
    rw [he] at h
    exact absurd h (by decide)
  refine ⟨?_, ?_, ?_⟩
  · intro img page_num hfs
    unfold load_image
    rw [if_neg hne, if_pos h, hfs]
  · intro p1 p2
    unfold load_image
    simp only [if_neg hne, if_pos h]
  · unfold get_page_count
    rw [if_neg hne]

theorem load_image_raster_ignores_page_witness :
    load_image fsDemo (("b.png").data) 7 150 = Except.ok img1x1 :=
  (load_image_raster_ignores_page fsDemo (("b.png").data) 150 (by decide)).1 img1x1 7 rfl

/-- C8: every failure raised in any stage of the pipeline is caught by
`main`'s handler, which emits the single JSON object
`{"success": false, "error": "<message>"}` and exits with code 1 — in
particular requesting a page at or beyond a PDF's page count, and an input
whose extension is neither `.pdf` nor a recognised raster extension, both
end that way — while a successful run emits the success JSON object and
exits with code 0. -/
theorem main_error_contract (fs : FileSystem) (a : Args) :
    (∀ e, runPipeline fs a = Except.error e → main fs a = (failureJson e, 1)) ∧
    (∀ r, runPipeline fs a = Except.ok r → main fs a = (successJson r, 0)) ∧
    (∀ pages, fs a.file1 = some (FileContent.pdf pages) →
      extOf a.file1 = ((".pdf").data) → pages.length ≤ a.page →
      ∃ e, main fs a = (failureJson e, 1)) ∧
    (extOf a.file1 ≠ ((".pdf").data) → extOf a.file1 ∉ rasterExts →
      ∃ e, main fs a = (failureJson e, 1)) := by
  have hmainE : ∀ e, runPipeline fs a = Except.error e → main fs a = (failureJson e, 1) := by
    intro e h
    unfold main
    rw [h]
  have hmainO : ∀ r, runPipeline fs a = Except.ok r → main fs a = (successJson r, 0) := by
    intro r h
    unfold main
    rw [h]
  refine ⟨hmainE, hmainO, ?_, ?_⟩
  · intro pages hfs hext hle
    have h1 : get_page_count fs a.file1 = Except.ok pages.length := by
      unfold get_page_count
      rw [if_pos hext, hfs]
    have hload : load_image fs a.file1 a.page a.dpi =
        Except.error (pageErrMsg a.page a.file1 pages.length) := by
      unfold load_image
      rw [if_pos hext]
      unfold pdf_page_to_image
      rw [hfs]
      dsimp only
      rw [dif_pos hle]
    cases h2 : get_page_count fs a.file2 with
    | error e2 =>
      refine ⟨e2, hmainE e2 ?_⟩
      unfold runPipeline
      rw [h1]
      rw [h2]
    | ok n2 =>
      refine ⟨pageErrMsg a.page a.file1 pages.length, hmainE _ ?_⟩
      unfold runPipeline
      rw [h1]
      rw [h2]
      rw [hload]
  · intro hne hnr
    have h1 : get_page_count fs a.file1 = Except.ok 1 := by
      unfold get_page_count
      rw [if_neg hne]
    have hload : load_image fs a.file1 a.page a.dpi =
        Except.error (unsupportedErrMsg (extOf a.file1)) := by
      unfold load_image
      rw [if_neg hne, if_neg hnr]
    cases h2 : get_page_count fs a.file2 with
    | error e2 =>
      refine ⟨e2, hmainE e2 ?_⟩
      unfold runPipeline
      rw [h1]
      rw [h2]
    | ok n2 =>
      refine ⟨unsupportedErrMsg (extOf a.file1), hmainE _ ?_⟩
      unfold runPipeline
      rw [h1]
      rw [h2]
      rw [hload]

theorem main_error_contract_witness :
    ∃ e, main fsDemo argsDemo = (failureJson e, 1) :=
  (main_error_contract fsDemo argsDemo).2.2.1 [] rfl (by decide) (by decide)

end VisualDiff
